import Mathlib

/-!
Shallow embedding of a WooCommerce-to-Telegram product-announcement bot.

The repository holds two variants of the same program:

* namespace `Bbb` embeds `src/bbbbbaqiap92s.py`;
* namespace `Tst` embeds `src/testing22.py`.

Catalog items are the JSON objects returned by the product API; every field a
variant dereferences is modelled as an `Option`, with `none` standing for a
missing key, so that Python's raising subscript `d["k"]` and its total
`d.get("k", default)` can both be embedded faithfully.  Network calls
(the catalog fetch and the Telegram send) are modelled by outcome oracles
passed in as arguments, and the durable dedup file is modelled explicitly as
a sequence of text lines.
-/

/-- Exceptions the embedded code can raise. -/
inductive PyErr
  | keyError (field : String)
  | valueError
  | fileNotFound
  | osError
deriving DecidableEq

/-- One element of a product's `images` JSON array. -/
structure Image where
  src : Option String
deriving DecidableEq

/-- One element of a product's `tags` JSON array. -/
structure PTag where
  name : Option String
deriving DecidableEq

/-- One catalog item, a JSON object from the product API.  Each field is
`none` when the corresponding key is missing from the object. -/
structure Product where
  id : Option Nat
  name : Option String
  short_description : Option String
  images : Option (List Image)
  tags : Option (List PTag)
  permalink : Option String
deriving DecidableEq

/-- Python's raising dictionary subscript `obj["field"]`. -/
def pySub {α : Type} (v : Option α) (field : String) : Except PyErr α :=
  match v with
  | some a => Except.ok a
  | none => Except.error (PyErr.keyError field)

/-- Python's `s.replace(" ", "_")`: the replaced substring is a single
character, so the call is a character-wise map. -/
def pyReplaceSpace (s : String) : String :=
  String.mk (s.toList.map fun c => if c = ' ' then '_' else c)

/-- Leading- and trailing-whitespace removal on a character list. -/
def stripChars (l : List Char) : List Char :=
  ((l.dropWhile Char.isWhitespace).reverse.dropWhile Char.isWhitespace).reverse

/-- Python's `s.strip()` (whitespace on both ends removed). -/
def pyStrip (s : String) : String :=
  String.mk (stripChars s.toList)

/-- State machine for `re.sub(r"<.*?>", "", s)`.  The first argument buffers
the characters consumed since the last unmatched `<`: on `>` the whole
buffered span is a match of the non-greedy pattern and is dropped; `.` does
not match a newline, so on `\x0a` every `<` buffered so far has failed and
the buffer is emitted verbatim, as it also is at the end of the input. -/
def stripTagsAux : Option (List Char) → List Char → List Char
  | none, [] => []
  | some buf, [] => buf
  | none, c :: cs =>
    if c = '<' then stripTagsAux (some ['<']) cs else c :: stripTagsAux none cs
  | some buf, c :: cs =>
    if c = '>' then stripTagsAux none cs
    else if c = '\n' then buf ++ '\n' :: stripTagsAux none cs
    else stripTagsAux (some (buf ++ [c])) cs

/-- The tag-removing substitution `re.sub(r"<.*?>", "", s)` used by
`clean_html` in both variants. -/
def stripTags (l : List Char) : List Char :=
  stripTagsAux none l

/-- Index of the last newline in a character list, if any. -/
def lastNlIdx : List Char → Option Nat
  | [] => none
  | c :: cs =>
    match lastNlIdx cs with
    | some k => some (k + 1)
    | none => if c = '\n' then some 0 else none

/-- Resolution of one maximal whitespace run for `re.sub(r"\s+\n", "\n", s)`:
the greedy, backtracking match starting at the head of the run ends at the
run's last newline provided that newline is preceded by at least one
whitespace character; the matched span is replaced by a single newline. -/
def resolveRun (run : List Char) : List Char :=
  match lastNlIdx run with
  | some k => if 1 ≤ k then '\n' :: run.drop (k + 1) else run
  | none => run

/-- Scanner for `re.sub(r"\s+\n", "\n", s)`: whitespace is buffered into the
current run, and the run is resolved when a non-whitespace character or the
end of the input is reached. -/
def collapseWsAux : List Char → List Char → List Char
  | buf, [] => resolveRun buf
  | buf, c :: cs =>
    if c.isWhitespace then collapseWsAux (buf ++ [c]) cs
    else resolveRun buf ++ c :: collapseWsAux [] cs

/-- The whitespace-before-newline collapsing substitution
`re.sub(r"\s+\n", "\n", s)` used by `clean_html` in `testing22.py`. -/
def collapseWsNl (l : List Char) : List Char :=
  collapseWsAux [] l

/-- Character of a decimal digit value. -/
def decDigitChar (d : Nat) : Char :=
  Char.ofNat (48 + d)

/-- Decimal text of a natural number, as Python's `f"{product_id}"` renders
it (big-endian digits, `0` rendered as `"0"`). -/
def natRepr (n : Nat) : List Char :=
  if n = 0 then ['0'] else (Nat.digits 10 n).reverse.map decDigitChar

/-- Python's `int(s)` on an already-stripped line, for the nonnegative
decimal numerals this program writes: any non-digit character (and the empty
string) raises `ValueError`, modelled as `none`. -/
def pyInt (l : List Char) : Option Nat :=
  if l ≠ [] ∧ l.all Char.isDigit then
    some (Nat.ofDigits 10 ((l.map fun c => c.toNat - 48).reverse))
  else none

/-- The durable dedup file.  `lines ls` is a readable file whose text is the
newline-terminated concatenation of the entries of `ls` (each entry is the
content of one line, without its terminating newline); `unreadable` is a
file that exists but cannot be opened for reading or appending. -/
inductive DedupFile
  | absent
  | unreadable
  | lines (ls : List (List Char))
deriving DecidableEq

/-- The body of the set comprehension
`{int(line.strip()) for line in f if line.strip()}` shared by both
variants' `load_sent_ids`: blank lines are skipped and the first
unparsable line raises `ValueError`. -/
def parseLines : List (List Char) → Except PyErr (Finset Nat)
  | [] => Except.ok ∅
  | l :: ls =>
    let s := stripChars l
    if s = [] then parseLines ls
    else
      match pyInt s with
      | none => Except.error PyErr.valueError
      | some n => (parseLines ls).map (insert n)

/-- Opening and parsing the dedup file: absence raises `FileNotFoundError`,
an unreadable file raises `OSError`, and a readable file is parsed line by
line. -/
def read_sent_ids : DedupFile → Except PyErr (Finset Nat)
  | DedupFile.absent => Except.error PyErr.fileNotFound
  | DedupFile.unreadable => Except.error PyErr.osError
  | DedupFile.lines ls => parseLines ls

/-- Appending one identifier to the dedup file as a new line
(`f.write(f"{product_id}\n")` after `open(..., "a")`): appending to an
absent file creates it, and an unopenable file raises. -/
def write_sent_id (pid : Nat) : DedupFile → Except PyErr DedupFile
  | DedupFile.absent => Except.ok (DedupFile.lines [natRepr pid])
  | DedupFile.unreadable => Except.error PyErr.osError
  | DedupFile.lines ls => Except.ok (DedupFile.lines (ls ++ [natRepr pid]))

namespace Bbb

/-- The `load_sent_ids` of `bbbbbaqiap92s.py` (lines 26-35): only
`FileNotFoundError` is caught (yielding the empty set); every other error,
including a `ValueError` from `int`, propagates to the caller. -/
def load_sent_ids (f : DedupFile) : Except PyErr (Finset Nat) :=
  match read_sent_ids f with
  | Except.error PyErr.fileNotFound => Except.ok ∅
  | r => r

/-- The `save_sent_id` of `bbbbbaqiap92s.py` (lines 37-40): no exception
handling, a write failure propagates. -/
def save_sent_id (pid : Nat) (f : DedupFile) : Except PyErr DedupFile :=
  write_sent_id pid f

end Bbb

namespace Tst

/-- The `load_sent_ids` of `testing22.py` (lines 76-86): `FileNotFoundError`
and every other exception are both caught, yielding the empty set. -/
def load_sent_ids (f : DedupFile) : Finset Nat :=
  match read_sent_ids f with
  | Except.ok s => s
  | Except.error _ => ∅

/-- The `save_sent_id` of `testing22.py` (lines 88-94): a write failure is
caught and swallowed, leaving the file as it was. -/
def save_sent_id (pid : Nat) (f : DedupFile) : DedupFile :=
  match write_sent_id pid f with
  | Except.ok g => g
  | Except.error _ => f

end Tst

/-- Recording a list of identifiers in order via the dedup store's append
operation (`save_sent_id` once per identifier). -/
def recordAll (ids : List Nat) (f : DedupFile) : DedupFile :=
  ids.foldl (fun g i => Tst.save_sent_id i g) f

/-- Outcome of one attempted Telegram send: delivered, rate-limited with a
required wait (`telegram.error.RetryAfter`), or any other exception. -/
inductive SendOutcome
  | success
  | retryAfter (secs : Nat)
  | failure (msg : String)
deriving DecidableEq

/-- Observable events of `send_to_channel`: one network attempt carrying the
payload, or one suspension of the given duration. -/
inductive SendEv
  | attempt (text : String) (image : Option String) (link : String)
  | sleep (secs : Nat)
deriving DecidableEq

/-- The `send_to_channel` of both variants (`bbbbbaqiap92s.py` lines 55-84,
`testing22.py` lines 96-113), with the network modelled by an oracle giving
the outcome of each successive attempt: success returns `true`;
`RetryAfter e` sleeps `e.retry_after` seconds and recursively re-sends the
same `text`, `image`, `link`; any other exception is logged and returns
`false`.  The value on an exhausted oracle is arbitrary (`false` with no
events); theorems only use oracles that cover every attempt. -/
def send_to_channel (text : String) (image : Option String) (link : String) :
    List SendOutcome → Bool × List SendEv
  | [] => (false, [])
  | o :: rest =>
    match o with
    | SendOutcome.success => (true, [SendEv.attempt text image link])
    | SendOutcome.failure _ => (false, [SendEv.attempt text image link])
    | SendOutcome.retryAfter n =>
      let r := send_to_channel text image link rest
      (r.1, SendEv.attempt text image link :: SendEv.sleep n :: r.2)

/-- The outbound message payload: the caption text, the optional photo
reference, and the inline button's URL, exactly the arguments passed to
`send_to_channel`. -/
structure Payload where
  text : String
  image : Option String
  link : String
deriving DecidableEq

namespace Bbb

/-- The `clean_html` of `bbbbbaqiap92s.py` (lines 44-45):
`re.sub(r"<.*?>", "", raw_html)` and nothing else. -/
def clean_html (raw : String) : String :=
  String.mk (stripTags raw.toList)

/-- The hashtag-list loop of `format_tags` (`bbbbbaqiap92s.py` lines 47-53):
`t["name"]` raises `KeyError` when a tag has no name; spaces become
underscores; a text containing a period is skipped; the rest are prefixed
with a hash. -/
def format_tags_list : List PTag → Except PyErr (List String)
  | [] => Except.ok []
  | t :: ts => do
    let n ← pySub t.name "name"
    let tag_text := pyReplaceSpace n
    let rest ← format_tags_list ts
    if tag_text.toList.contains '.' then pure rest else pure (("#" ++ tag_text) :: rest)

/-- The `format_tags` of `bbbbbaqiap92s.py`: the built list joined with
single spaces. -/
def format_tags (tl : List PTag) : Except PyErr String :=
  (format_tags_list tl).map (String.intercalate " ")

/-- The per-item formatting block of `check_for_new_products`
(`bbbbbaqiap92s.py` lines 118-131), in source order: `product["name"]` and
`product["images"]` (and the first image's `["src"]`, and each tag's
`["name"]`) are raising subscripts, while `short_description` and
`permalink` fall back to `""` and `"#"` via `.get`. -/
def format (cu : String) (p : Product) : Except PyErr Payload := do
  let title ← pySub p.name "name"
  let excerpt := clean_html (p.short_description.getD "")
  let imgs ← pySub p.images "images"
  let image ← match imgs with
    | [] => Except.ok none
    | i :: _ => (pySub i.src "src").map some
  let tags ← format_tags (p.tags.getD [])
  let link := p.permalink.getD "#"
  Except.ok
    { text := "🛒 <b>" ++ title ++ "</b>\n\n" ++ excerpt ++ "\n\n" ++ tags ++ "\n\n" ++ cu
      image := image
      link := link }

/-- The new-item selection of `bbbbbaqiap92s.py` (line 108):
`[p for p in products if p["id"] not in sent_ids]`, where the subscript
raises on a product without an `id`. -/
def new_products : List Product → Finset Nat → Except PyErr (List Product)
  | [], _ => Except.ok []
  | p :: ps, sent_ids => do
    let i ← pySub p.id "id"
    let rest ← new_products ps sent_ids
    if i ∈ sent_ids then pure rest else pure (p :: rest)

end Bbb

namespace Tst

/-- The `clean_html` of `testing22.py` (lines 53-61): empty (or missing,
hence falsy) input short-circuits to `""`; otherwise tags are removed,
whitespace runs before a newline are collapsed, and the result is
stripped. -/
def clean_html (raw : String) : String :=
  if raw = "" then ""
  else pyStrip (String.mk (collapseWsNl (stripTags raw.toList)))

/-- The hashtag-list loop of `format_tags` (`testing22.py` lines 63-74):
the tag name is read totally (`t.get("name","")`), stripped, skipped when
empty, spaces become underscores, a text containing a period is skipped,
the rest are prefixed with a hash. -/
def format_tags_list : List PTag → List String
  | [] => []
  | t :: ts =>
    let name := pyStrip (t.name.getD "")
    if name = "" then format_tags_list ts
    else
      let tag_text := pyReplaceSpace name
      if tag_text.toList.contains '.' then format_tags_list ts
      else ("#" ++ tag_text) :: format_tags_list ts

/-- The `format_tags` of `testing22.py`: the built list joined with single
spaces. -/
def format_tags (tl : List PTag) : String :=
  String.intercalate " " (format_tags_list tl)

/-- The per-item formatting block of `check_for_new_products_once`
(`testing22.py` lines 152-170).  Every access is total: the title falls
back to the placeholder, the excerpt to `""` (the `or ""` guard), the image
to the first image's `src` via the `try`/`except` wrapper, the link to
`"#"`. -/
def format (cu : String) (p : Product) : Payload :=
  let title := p.name.getD "بدون عنوان"
  let excerpt := clean_html (p.short_description.getD "")
  let image := match p.images with
    | some (i :: _) => i.src
    | _ => none
  let tags := format_tags (p.tags.getD [])
  let link := p.permalink.getD "#"
  { text := "🛒 <b>" ++ title ++ "</b>\n\n" ++ excerpt ++ "\n\n" ++ tags ++ "\n\n" ++ cu
    image := image
    link := link }

/-- The new-item selection of `testing22.py` (line 141):
`[p for p in products if int(p.get("id", 0)) not in sent_ids]`, total, with
a missing `id` read as `0`. -/
def new_products (products : List Product) (sent_ids : Finset Nat) : List Product :=
  products.filter fun p => p.id.getD 0 ∉ sent_ids

end Tst

/-- Observable events of one delivery loop: one publish attempt for the
item with the given identifier and its reported outcome, or the recording
of one identifier in the dedup store. -/
inductive PassEv
  | publish (pid : Nat) (ok : Bool)
  | record (pid : Nat)
deriving DecidableEq

/-- Identifiers of the successfully published items, in event order. -/
def successIds : List PassEv → List Nat
  | [] => []
  | PassEv.publish i true :: evs => i :: successIds evs
  | _ :: evs => successIds evs

/-- Identifier of a publish event, if the event is one. -/
def publishedId : PassEv → Option Nat
  | PassEv.publish i _ => some i
  | PassEv.record _ => none

namespace Tst

/-- The `DELIVERING` loop of `check_for_new_products_once` (`testing22.py`
lines 150-179): items strictly one at a time in list order; each is
formatted, sent (`pub` gives `send_to_channel`'s reported result for the
payload), and its identifier is appended to the dedup file exactly when the
send reported success. -/
def deliver (cu : String) (pub : Payload → Bool) :
    List Product → DedupFile → DedupFile × List PassEv
  | [], f => (f, [])
  | p :: ps, f =>
    let pid := p.id.getD 0
    let ok := pub (format cu p)
    let f' := if ok then save_sent_id pid f else f
    let r := deliver cu pub ps f'
    (r.1, PassEv.publish pid ok :: ((if ok then [PassEv.record pid] else []) ++ r.2))

/-- The event trace of `deliver`, which does not depend on the store. -/
def trace (cu : String) (pub : Payload → Bool) : List Product → List PassEv
  | [] => []
  | p :: ps =>
    let ok := pub (format cu p)
    PassEv.publish (p.id.getD 0) ok ::
      ((if ok then [PassEv.record (p.id.getD 0)] else []) ++ trace cu pub ps)

end Tst

namespace Bbb

/-- The `DELIVERING` loop of `check_for_new_products` (`bbbbbaqiap92s.py`
lines 117-139) over the already-reversed selection: each item is formatted
(raising subscripts abort the pass, leaving the file as written so far),
sent, and on success `save_sent_id(product["id"])` appends its identifier
(raising if the id is missing or the file unwritable). -/
def deliver (cu : String) (pub : Payload → Bool) :
    List Product → DedupFile → DedupFile × List PassEv × Option PyErr
  | [], f => (f, [], none)
  | p :: ps, f =>
    match format cu p with
    | Except.error e => (f, [], some e)
    | Except.ok pay =>
      if pub pay then
        match p.id with
        | none => (f, [PassEv.publish 0 true], some (PyErr.keyError "id"))
        | some i =>
          match save_sent_id i f with
          | Except.error e => (f, [PassEv.publish i true], some e)
          | Except.ok f' =>
            let r := deliver cu pub ps f'
            (r.1, PassEv.publish i true :: PassEv.record i :: r.2.1, r.2.2)
      else
        let r := deliver cu pub ps f
        (r.1, PassEv.publish (p.id.getD 0) false :: r.2.1, r.2.2)

end Bbb

/-- A Python value as it appears among HTTP query parameters: the embedding
only needs strings, integers, tuples and nested dicts. -/
inductive PyVal
  | str (s : String)
  | int (n : Nat)
  | pair (a b : PyVal)
  | dict (entries : List (String × PyVal))

/-- The arguments of one `requests.get` call: the URL, what is bound to the
`params` parameter, what is bound to the `auth` parameter, and the
timeout. -/
structure HttpGet where
  url : String
  params : List (String × PyVal)
  auth : Option (String × String)
  timeout : Option Nat

namespace Bbb

/-- The catalog fetch call of `check_for_new_products` (`bbbbbaqiap92s.py`
lines 94-100): `requests.get(API_URL, auth=(CONSUMER_KEY, CONSUMER_SECRET),
params=..., timeout=20)` with `per_page=100`, `orderby=date`,
`order=desc`. -/
def fetch_request (apiUrl ck cs : String) : HttpGet :=
  { url := apiUrl
    params := [("per_page", PyVal.int 100), ("orderby", PyVal.str "date"),
               ("order", PyVal.str "desc")]
    auth := some (ck, cs)
    timeout := some 20 }

/-- The pass `check_for_new_products` (`bbbbbaqiap92s.py` lines 88-139):
load the sent ids (a load error propagates), fetch (a `RequestException` is
caught and ends the pass), select, then deliver the selection reversed,
oldest first given the descending fetch order. -/
def check_for_new_products (cu : String) (pub : Payload → Bool)
    (fetch : Except String (List Product)) (f : DedupFile) :
    DedupFile × List PassEv × Option PyErr :=
  match load_sent_ids f with
  | Except.error e => (f, [], some e)
  | Except.ok sent_ids =>
    match fetch with
    | Except.error _ => (f, [], none)
    | Except.ok products =>
      match new_products products sent_ids with
      | Except.error e => (f, [], some e)
      | Except.ok np => deliver cu pub np.reverse f

/-- The hard-coded poll interval of `main` (`bbbbbaqiap92s.py` line 152). -/
def check_interval_seconds : Nat := 3600

/-- `n` iterations of the `while True` loop of `main` (`bbbbbaqiap92s.py`
lines 144-154): the pass runs inside `try`/`except`, so whatever it raises
is logged and the loop keeps the store the pass left behind, sleeps the
poll interval (collected in the returned list) and goes round again. -/
def main_loop (pass : DedupFile → DedupFile × List PassEv × Option PyErr) :
    Nat → DedupFile → DedupFile × List Nat
  | 0, f => (f, [])
  | n + 1, f =>
    let r := pass f
    let rec_ := main_loop pass n r.1
    (rec_.1, check_interval_seconds :: rec_.2)

end Bbb

namespace Tst

/-- The fetch call of `fetch_products` (`testing22.py` lines 116-125):
`requests.get(API_URL, ...)` is given ONE positional argument after the
URL, the dict holding the credential pair under `"auth"` and the intended
query dict under `"params"`.  `requests.get`'s second positional parameter
is `params`, so that wrapper dict becomes the query parameters and nothing
is bound to `auth`. -/
def fetch_request (apiUrl ck cs : String) (per_page : Nat) : HttpGet :=
  { url := apiUrl
    params := [("auth", PyVal.pair (PyVal.str ck) (PyVal.str cs)),
               ("params", PyVal.dict
                 [("per_page", PyVal.int per_page), ("orderby", PyVal.str "date"),
                  ("order", PyVal.str "asc")])]
    auth := none
    timeout := none }

/-- The result handling of `fetch_products` (`testing22.py` lines 119-128):
any exception is caught inside and an empty list returned. -/
def fetch_products (result : Except String (List Product)) : List Product :=
  match result with
  | Except.ok products => products
  | Except.error _ => []

/-- The pass `check_for_new_products_once` (`testing22.py` lines 130-179):
load (total), fetch (errors became `[]`), select, deliver in fetch order
(oldest first given the ascending fetch order).  The `isinstance` guard and
the empty-selection early return coincide with delivering an empty list. -/
def check_for_new_products_once (cu : String) (pub : Payload → Bool)
    (fetch : Except String (List Product)) (f : DedupFile) :
    DedupFile × List PassEv :=
  let sent_ids := load_sent_ids f
  let products := fetch_products fetch
  deliver cu pub (new_products products sent_ids) f

/-- `n` iterations of `background_loop` (`testing22.py` lines 182-190): the
pass runs inside `try`/`except`, the loop sleeps `CHECK_INTERVAL_SECONDS`
(collected in the returned list) and goes round again. -/
def background_loop (interval : Nat) (pass : DedupFile → DedupFile × List PassEv) :
    Nat → DedupFile → DedupFile × List Nat
  | 0, f => (f, [])
  | n + 1, f =>
    let rec_ := background_loop interval pass n (pass f).1
    (rec_.1, interval :: rec_.2)

end Tst

/-- The hashtag derivation exactly as claim C10 words it, for comparison
with the code: each tag name in input order, spaces replaced by
underscores, the result skipped when it contains a period or is empty, a
hash prefixed to the rest, the results joined with single spaces. -/
def claimed_format_tags (names : List String) : String :=
  String.intercalate " "
    (((names.map pyReplaceSpace).filter fun s =>
        !(s.toList.contains '.') && !(s == "")).map fun s => "#" ++ s)

/-! ### Decimal text: supporting lemmas -/

theorem decDigitChar_spec :
    ∀ d < 10, (decDigitChar d).toNat - 48 = d ∧ (decDigitChar d).isDigit = true
      ∧ (decDigitChar d).isWhitespace = false := by decide

theorem exists_digit_of_mem_natRepr {n : Nat} {c : Char} (hc : c ∈ natRepr n) :
    ∃ d, d < 10 ∧ c = decDigitChar d := by
  unfold natRepr at hc
  split at hc
  · simp only [List.mem_singleton] at hc
    exact ⟨0, by norm_num, by rw [hc]; rfl⟩
  · rcases List.mem_map.mp hc with ⟨d, hd, rfl⟩
    exact ⟨d, Nat.digits_lt_base (by norm_num) (List.mem_reverse.mp hd), rfl⟩

theorem natRepr_ne_nil (n : Nat) : natRepr n ≠ [] := by
  unfold natRepr
  split
  · simp
  · intro h
    rcases List.map_eq_nil_iff.mp h with h'
    exact Nat.digits_ne_nil_iff_ne_zero.mpr (by assumption) (List.reverse_eq_nil_iff.mp h')

theorem natRepr_all_digit (n : Nat) : (natRepr n).all Char.isDigit = true := by
  rw [List.all_eq_true]
  intro c hc
  rcases exists_digit_of_mem_natRepr hc with ⟨d, hd, rfl⟩
  exact (decDigitChar_spec d hd).2.1

theorem natRepr_no_ws {n : Nat} {c : Char} (hc : c ∈ natRepr n) :
    c.isWhitespace = false := by
  rcases exists_digit_of_mem_natRepr hc with ⟨d, hd, rfl⟩
  exact (decDigitChar_spec d hd).2.2

theorem dropWhile_ws_eq_self {m : List Char} (hm : ∀ c ∈ m, c.isWhitespace = false) :
    m.dropWhile Char.isWhitespace = m := by
  cases m with
  | nil => rfl
  | cons c cs => rw [List.dropWhile_cons, hm c (by simp)]; simp

theorem stripChars_eq_self_of_no_ws {l : List Char}
    (h : ∀ c ∈ l, c.isWhitespace = false) : stripChars l = l := by
  unfold stripChars
  rw [dropWhile_ws_eq_self h, dropWhile_ws_eq_self, List.reverse_reverse]
  intro c hc
  exact h c (List.mem_reverse.mp hc)

theorem stripChars_natRepr (n : Nat) : stripChars (natRepr n) = natRepr n :=
  stripChars_eq_self_of_no_ws fun _ hc => natRepr_no_ws hc

theorem pyInt_natRepr (n : Nat) : pyInt (natRepr n) = some n := by
  by_cases h0 : n = 0
  · subst h0; decide
  · unfold pyInt
    rw [if_pos ⟨natRepr_ne_nil n, natRepr_all_digit n⟩]
    congr 1
    unfold natRepr
    rw [if_neg h0, List.map_map]
    have hmap : (Nat.digits 10 n).reverse.map ((fun c => c.toNat - 48) ∘ decDigitChar)
        = (Nat.digits 10 n).reverse.map id := by
      apply List.map_congr_left
      intro d hd
      exact (decDigitChar_spec d
        (Nat.digits_lt_base (by norm_num) (List.mem_reverse.mp hd))).1
    rw [hmap, List.map_id, List.reverse_reverse, Nat.ofDigits_digits]

theorem natRepr_injective : Function.Injective natRepr := by
  intro a b h
  have ha := pyInt_natRepr a
  rw [h, pyInt_natRepr] at ha
  exact (Option.some_inj.mp ha).symm

theorem parseLines_natRepr (ids : List Nat) :
    parseLines (ids.map natRepr) = Except.ok ids.toFinset := by
  induction ids with
  | nil => rfl
  | cons a rest ih =>
    rw [List.map_cons, parseLines]
    simp only [stripChars_natRepr, if_neg (natRepr_ne_nil a), pyInt_natRepr, ih]
    simp [Except.map, List.toFinset_cons]

theorem recordAll_lines (ids : List Nat) (ls : List (List Char)) :
    recordAll ids (DedupFile.lines ls) = DedupFile.lines (ls ++ ids.map natRepr) := by
  induction ids generalizing ls with
  | nil => simp [recordAll]
  | cons a rest ih =>
    have step : Tst.save_sent_id a (DedupFile.lines ls)
        = DedupFile.lines (ls ++ [natRepr a]) := rfl
    calc recordAll (a :: rest) (DedupFile.lines ls)
        = recordAll rest (Tst.save_sent_id a (DedupFile.lines ls)) := rfl
      _ = recordAll rest (DedupFile.lines (ls ++ [natRepr a])) := by rw [step]
      _ = DedupFile.lines (ls ++ [natRepr a] ++ rest.map natRepr) := ih _
      _ = DedupFile.lines (ls ++ (a :: rest).map natRepr) := by
            rw [List.append_assoc]; rfl

theorem recordAll_absent (ids : List Nat) (h : ids ≠ []) :
    recordAll ids DedupFile.absent = DedupFile.lines (ids.map natRepr) := by
  cases ids with
  | nil => exact absurd rfl h
  | cons a rest =>
    have step : Tst.save_sent_id a DedupFile.absent
        = DedupFile.lines [natRepr a] := rfl
    calc recordAll (a :: rest) DedupFile.absent
        = recordAll rest (DedupFile.lines [natRepr a]) := by
          show recordAll rest (Tst.save_sent_id a DedupFile.absent) = _
          rw [step]
      _ = DedupFile.lines ([natRepr a] ++ rest.map natRepr) := recordAll_lines _ _
      _ = DedupFile.lines ((a :: rest).map natRepr) := rfl

/-- C5: after recording a list of identifiers (repeats allowed) on an
initially absent dedup file, the file holds exactly those identifiers as
text, one per newline-terminated line, appended in order; both variants'
`load_sent_ids` then return the set of exactly those identifiers with
duplicates collapsed; an absent file loads as the empty set; and on a
readable file the two variants' `save_sent_id` append identically. -/
theorem C5_dedup_roundtrip :
    (∀ ids : List Nat, ids ≠ [] →
        recordAll ids DedupFile.absent = DedupFile.lines (ids.map natRepr))
    ∧ (∀ ids : List Nat,
        Tst.load_sent_ids (recordAll ids DedupFile.absent) = ids.toFinset
        ∧ Bbb.load_sent_ids (recordAll ids DedupFile.absent) = Except.ok ids.toFinset)
    ∧ Bbb.load_sent_ids DedupFile.absent = Except.ok ∅
    ∧ Tst.load_sent_ids DedupFile.absent = ∅
    ∧ (∀ (i : Nat) (ls : List (List Char)),
        Bbb.save_sent_id i (DedupFile.lines ls)
          = Except.ok (Tst.save_sent_id i (DedupFile.lines ls))) := by
  refine ⟨recordAll_absent, ?_, rfl, rfl, fun i ls => rfl⟩
  intro ids
  cases ids with
  | nil => exact ⟨rfl, rfl⟩
  | cons a rest =>
    rw [recordAll_absent _ (by simp)]
    constructor
    · simp only [Tst.load_sent_ids, read_sent_ids, parseLines_natRepr]
    · simp only [Bbb.load_sent_ids, read_sent_ids, parseLines_natRepr]

theorem C5_dedup_roundtrip_witness :
    ([7, 7, 9] : List Nat) ≠ []
    ∧ recordAll [7, 7, 9] DedupFile.absent
        = DedupFile.lines ([7, 7, 9].map natRepr)
    ∧ Tst.load_sent_ids (recordAll [7, 7, 9] DedupFile.absent)
        = ([7, 7, 9] : List Nat).toFinset
    ∧ ([7, 7, 9] : List Nat).toFinset = ({7, 9} : Finset Nat) :=
  ⟨by decide, C5_dedup_roundtrip.1 [7, 7, 9] (by decide),
   (C5_dedup_roundtrip.2.1 [7, 7, 9]).1, by decide⟩

/-- C8 counterexample: the claim says a dedup file with unparsable content
makes `load` return the empty set without the error propagating, but in
`bbbbbaqiap92s.py` the `ValueError` raised by `int` on the line `"a"`
escapes `load_sent_ids`. -/
theorem C8_counterexample :
    Bbb.load_sent_ids (DedupFile.lines [['a']]) = Except.error PyErr.valueError
    ∧ Except.error PyErr.valueError ≠ (Except.ok ∅ : Except PyErr (Finset Nat)) :=
  ⟨rfl, fun h => Except.noConfusion h⟩

/-- C8 amended: in `testing22.py` every read failure (absence, unreadable
file, unparsable content) is caught and yields the empty set and a write
failure is swallowed leaving the file unchanged, as the claim says; in
`bbbbbaqiap92s.py` only absence of the file is caught — an unreadable file
or unparsable content makes `load_sent_ids` raise, and a write failure
makes `save_sent_id` raise, the error propagating to the poll loop. -/
theorem C8_amended :
    (∀ ls : List (List Char), parseLines ls = Except.error PyErr.valueError →
        Bbb.load_sent_ids (DedupFile.lines ls) = Except.error PyErr.valueError)
    ∧ (∀ i : Nat, Bbb.save_sent_id i DedupFile.unreadable = Except.error PyErr.osError)
    ∧ Bbb.load_sent_ids DedupFile.absent = Except.ok ∅
    ∧ Bbb.load_sent_ids DedupFile.unreadable = Except.error PyErr.osError
    ∧ (∀ f : DedupFile, (∃ e, read_sent_ids f = Except.error e) → Tst.load_sent_ids f = ∅)
    ∧ (∀ i : Nat, Tst.save_sent_id i DedupFile.unreadable = DedupFile.unreadable) := by
  refine ⟨?_, fun i => rfl, rfl, rfl, ?_, fun i => rfl⟩
  · intro ls h
    simp only [Bbb.load_sent_ids, read_sent_ids, h]
  · intro f ⟨e, he⟩
    simp only [Tst.load_sent_ids, he]

theorem C8_amended_witness :
    parseLines [['a']] = Except.error PyErr.valueError
    ∧ Bbb.load_sent_ids (DedupFile.lines [['a']]) = Except.error PyErr.valueError
    ∧ Tst.load_sent_ids DedupFile.unreadable = ∅ :=
  ⟨rfl, C8_amended.1 [['a']] rfl,
   C8_amended.2.2.2.2.1 DedupFile.unreadable ⟨PyErr.osError, rfl⟩⟩

/-! ### Selection -/

theorem Bbb.new_products_ok (products : List Product) (sent : Finset Nat)
    (h : ∀ p ∈ products, p.id.isSome) :
    Bbb.new_products products sent
      = Except.ok (products.filter fun p => p.id.getD 0 ∉ sent) := by
  induction products with
  | nil => rfl
  | cons p ps ih =>
    obtain ⟨i, hi⟩ := Option.isSome_iff_exists.mp (h p (by simp))
    rw [Bbb.new_products]
    simp only [hi, pySub, ih fun q hq => h q (List.mem_cons_of_mem _ hq)]
    by_cases hmem : i ∈ sent
    · simp [Bind.bind, Except.bind, Pure.pure, Except.pure, hmem, List.filter_cons, hi]
    · simp [Bind.bind, Except.bind, Pure.pure, Except.pure, hmem, List.filter_cons, hi]

/-- C2: for every fetched sequence and published set, the selection is the
order-preserving subsequence of exactly the items whose identifier is not
in the published set, and selecting again from its own output changes
nothing; in the `bbbbbaqiap92s.py` variant the same list is produced
(wrapped in `Except.ok`) whenever every fetched item carries an `id`.
The embedding is a pure function of immutable values, so neither argument
can be mutated and two calls on identical inputs are definitionally equal. -/
theorem C2_select_spec :
    ∀ (F : List Product) (P : Finset Nat),
    Tst.new_products F P = F.filter (fun p => p.id.getD 0 ∉ P)
    ∧ (Tst.new_products F P).Sublist F
    ∧ (∀ p : Product, p ∈ Tst.new_products F P ↔ p ∈ F ∧ p.id.getD 0 ∉ P)
    ∧ Tst.new_products (Tst.new_products F P) P = Tst.new_products F P
    ∧ ((∀ p ∈ F, p.id.isSome) →
        Bbb.new_products F P = Except.ok (Tst.new_products F P)) := by
  intro F P
  refine ⟨rfl, List.filter_sublist F, ?_, ?_, ?_⟩
  · intro p
    simp [Tst.new_products, List.mem_filter]
  · simp [Tst.new_products, List.filter_filter]
  · intro h
    exact Bbb.new_products_ok F P h

theorem C2_select_spec_witness :
    (∀ p ∈ [(⟨some 1, none, none, none, none, none⟩ : Product),
            ⟨some 2, none, none, none, none, none⟩], p.id.isSome)
    ∧ Bbb.new_products
        [(⟨some 1, none, none, none, none, none⟩ : Product),
         ⟨some 2, none, none, none, none, none⟩] ({1} : Finset Nat)
      = Except.ok (Tst.new_products
          [(⟨some 1, none, none, none, none, none⟩ : Product),
           ⟨some 2, none, none, none, none, none⟩] ({1} : Finset Nat))
    ∧ Tst.new_products
        [(⟨some 1, none, none, none, none, none⟩ : Product),
         ⟨some 2, none, none, none, none, none⟩] ({1} : Finset Nat)
      = [⟨some 2, none, none, none, none, none⟩] :=
  ⟨by decide,
   (C2_select_spec [⟨some 1, none, none, none, none, none⟩,
      ⟨some 2, none, none, none, none, none⟩] {1}).2.2.2.2 (by decide),
   by decide⟩

/-- C4: with the network modelled by the per-attempt outcome oracle, when
the oracle answers any number of rate-limit signals followed by a first
non-rate-limit outcome, `send_to_channel` sleeps exactly the signalled
duration after each rate-limited attempt and re-sends the same payload with
no retry bound, returns `true` exactly when the first non-rate-limit
outcome is success, and on any other failure returns `false` after that
single further attempt — no other condition is retried within the call. -/
theorem C4_rate_limit_retry :
    ∀ (text : String) (image : Option String) (link : String)
      (waits : List Nat) (o : SendOutcome) (rest : List SendOutcome),
    (∀ n, o ≠ SendOutcome.retryAfter n) →
    send_to_channel text image link (waits.map SendOutcome.retryAfter ++ o :: rest)
      = (o == SendOutcome.success,
         (waits.map fun n => [SendEv.attempt text image link, SendEv.sleep n]).flatten
           ++ [SendEv.attempt text image link]) := by
  intro t i l waits o rest ho
  induction waits with
  | nil =>
    cases o with
    | success => rfl
    | failure m => rfl
    | retryAfter n => exact absurd rfl (ho n)
  | cons w ws ih =>
    rw [List.map_cons, List.cons_append, send_to_channel]
    simp only [ih, List.map_cons, List.flatten]
    rfl

theorem C4_rate_limit_retry_witness :
    (∀ n, SendOutcome.failure "net" ≠ SendOutcome.retryAfter n)
    ∧ send_to_channel "t" none "#"
        ([5].map SendOutcome.retryAfter ++ SendOutcome.failure "net" :: [])
      = (SendOutcome.failure "net" == SendOutcome.success,
         ([5].map fun n => [SendEv.attempt "t" none "#", SendEv.sleep n]).flatten
           ++ [SendEv.attempt "t" none "#"])
    ∧ send_to_channel "t" none "#"
        [SendOutcome.retryAfter 5, SendOutcome.failure "net"]
      = (false, [SendEv.attempt "t" none "#", SendEv.sleep 5,
                 SendEv.attempt "t" none "#"]) :=
  ⟨fun n h => SendOutcome.noConfusion h,
   C4_rate_limit_retry "t" none "#" [5] (SendOutcome.failure "net") []
     (fun n h => SendOutcome.noConfusion h),
   by decide⟩

/-- C6 counterexample: the claim says every catalog fetch requests
ascending creation-date order, but the fetch of `bbbbbaqiap92s.py` requests
`order=desc` (newest first). -/
theorem C6_counterexample :
    (Bbb.fetch_request "https://shop.example/wp-json/wc/v3/products" "ck" "cs").params
      = [("per_page", PyVal.int 100), ("orderby", PyVal.str "date"),
         ("order", PyVal.str "desc")]
    ∧ PyVal.str "desc" ≠ PyVal.str "asc" := by
  refine ⟨rfl, fun h => ?_⟩
  injection h with h'
  exact absurd h' (by decide)

/-- C6 amended: both variants build a single-page query with `per_page`
100, `orderby=date` and an `order` direction, but `bbbbbaqiap92s.py`
requests descending order with the credential pair bound to `auth` (and a
20-second timeout), while `testing22.py` intends ascending order yet
passes the wrapper dict holding the credential pair and the query dict as
the one positional `params` argument of `requests.get`, so nothing is
bound to `auth`. -/
theorem C6_amended : ∀ u k s : String,
    (Bbb.fetch_request u k s).params
      = [("per_page", PyVal.int 100), ("orderby", PyVal.str "date"),
         ("order", PyVal.str "desc")]
    ∧ (Bbb.fetch_request u k s).auth = some (k, s)
    ∧ (Bbb.fetch_request u k s).timeout = some 20
    ∧ (Tst.fetch_request u k s 100).auth = none
    ∧ (Tst.fetch_request u k s 100).params
      = [("auth", PyVal.pair (PyVal.str k) (PyVal.str s)),
         ("params", PyVal.dict
           [("per_page", PyVal.int 100), ("orderby", PyVal.str "date"),
            ("order", PyVal.str "asc")])] :=
  fun u k s => ⟨rfl, rfl, rfl, rfl, rfl⟩

/-! ### Hashtags and formatting -/

theorem Bbb.format_tags_list_ok (tl : List PTag) (h : ∀ t ∈ tl, t.name.isSome) :
    Bbb.format_tags_list tl = Except.ok
      (((tl.map fun t => pyReplaceSpace (t.name.getD "")).filter
          fun s => !(s.toList.contains '.')).map fun s => "#" ++ s) := by
  induction tl with
  | nil => rfl
  | cons t ts ih =>
    obtain ⟨n, hn⟩ := Option.isSome_iff_exists.mp (h t (by simp))
    rw [Bbb.format_tags_list]
    simp only [hn, pySub, ih fun q hq => h q (List.mem_cons_of_mem _ hq)]
    by_cases hdot : '.' ∈ (pyReplaceSpace n).data
    · simp [Bind.bind, Except.bind, Pure.pure, Except.pure, hdot, List.filter_cons, hn]
    · simp [Bind.bind, Except.bind, Pure.pure, Except.pure, hdot, List.filter_cons, hn]

theorem Tst.format_tags_list_pipeline (tl : List PTag) :
    Tst.format_tags_list tl
      = ((((tl.map fun t => pyStrip (t.name.getD "")).filter fun s => !(s == "")).map
            pyReplaceSpace).filter fun s => !(s.toList.contains '.')).map
          fun s => "#" ++ s := by
  induction tl with
  | nil => rfl
  | cons t ts ih =>
    rw [Tst.format_tags_list]
    by_cases hempty : pyStrip (t.name.getD "") = ""
    · simp [hempty, ih, List.filter_cons]
    · by_cases hdot : '.' ∈ (pyReplaceSpace (pyStrip (t.name.getD ""))).data
      · simp [hempty, hdot, ih, List.filter_cons]
      · simp [hempty, hdot, ih, List.filter_cons]

/-- C10 counterexample: on the tag list holding one empty name,
`format_tags` of `bbbbbaqiap92s.py` produces the bare hashtag `"#"`, while
the claim's algorithm (skip an empty replaced text) produces `""`. -/
theorem C10_counterexample :
    Bbb.format_tags [⟨some ""⟩] = Except.ok "#"
    ∧ claimed_format_tags [""] = ""
    ∧ ("#" : String) ≠ "" :=
  ⟨rfl, rfl, by decide⟩

/-- C10 amended: in `bbbbbaqiap92s.py` the hashtag string takes each tag
name in order, replaces spaces with underscores, skips only texts
containing a period (an empty name still yields the bare `"#"`), prefixes
a hash and joins with single spaces — raising if a tag has no name; in
`testing22.py` the name is first stringified and stripped and skipped when
empty, and only then are spaces replaced and period-containing texts
skipped. -/
theorem C10_format_tags_amended :
    (∀ tl : List PTag, (∀ t ∈ tl, t.name.isSome) →
        Bbb.format_tags tl = Except.ok (String.intercalate " "
          (((tl.map fun t => pyReplaceSpace (t.name.getD "")).filter
              fun s => !(s.toList.contains '.')).map fun s => "#" ++ s)))
    ∧ (∀ tl : List PTag,
        Tst.format_tags tl = String.intercalate " "
          (((((tl.map fun t => pyStrip (t.name.getD "")).filter fun s => !(s == "")).map
                pyReplaceSpace).filter fun s => !(s.toList.contains '.')).map
              fun s => "#" ++ s)) := by
  constructor
  · intro tl h
    unfold Bbb.format_tags
    rw [Bbb.format_tags_list_ok tl h]
    rfl
  · intro tl
    unfold Tst.format_tags
    rw [Tst.format_tags_list_pipeline tl]

theorem C10_format_tags_amended_witness :
    (∀ t ∈ [(⟨some "x y"⟩ : PTag), ⟨some "v1.2"⟩], t.name.isSome)
    ∧ Bbb.format_tags [(⟨some "x y"⟩ : PTag), ⟨some "v1.2"⟩]
        = Except.ok (String.intercalate " "
            ((([(⟨some "x y"⟩ : PTag), ⟨some "v1.2"⟩].map
                  fun t => pyReplaceSpace (t.name.getD "")).filter
                fun s => !(s.toList.contains '.')).map fun s => "#" ++ s))
    ∧ Bbb.format_tags [(⟨some "x y"⟩ : PTag), ⟨some "v1.2"⟩] = Except.ok "#x_y"
    ∧ Tst.format_tags [(⟨some " a"⟩ : PTag)] = "#a" :=
  ⟨by decide, C10_format_tags_amended.1 [⟨some "x y"⟩, ⟨some "v1.2"⟩] (by decide),
   rfl, rfl⟩

theorem Bbb.format_ok (cu : String) (p : Product)
    (hname : p.name.isSome) (himg : p.images.isSome)
    (hsrc : ∀ i rest, p.images = some (i :: rest) → i.src.isSome)
    (htags : ∀ t ∈ p.tags.getD [], t.name.isSome) :
    ∃ pay, Bbb.format cu p = Except.ok pay := by
  obtain ⟨n, hn⟩ := Option.isSome_iff_exists.mp hname
  obtain ⟨imgs, hi⟩ := Option.isSome_iff_exists.mp himg
  unfold Bbb.format
  rw [show Bbb.format_tags (p.tags.getD []) = Except.ok _ from
    (by unfold Bbb.format_tags; rw [Bbb.format_tags_list_ok _ htags]; rfl)]
  cases imgs with
  | nil =>
    simp [Bind.bind, Except.bind, hn, hi, pySub]
  | cons i rest =>
    obtain ⟨s, hs⟩ := Option.isSome_iff_exists.mp (hsrc i rest hi)
    simp [Bind.bind, Except.bind, hn, hi, hs, pySub, Except.map]

/-- C7 counterexample: the claim says formatting never raises for any
catalog item, but the formatter of `bbbbbaqiap92s.py` raises `KeyError`
on an item with no `name` field. -/
theorem C7_counterexample :
    Bbb.format "cu" ⟨some 1, none, none, some [], some [], none⟩
      = Except.error (PyErr.keyError "name") :=
  rfl

/-- C7 amended: in `testing22.py` formatting is total on every catalog
item — a missing name degrades to the placeholder title, a missing excerpt
and missing tags to empty strings, the image to the first image reference
or nothing, the link to `"#"`; in `bbbbbaqiap92s.py` formatting succeeds
once the item has a `name`, an `images` array whose first element (if any)
has a `src`, and a name on every tag, and raises `KeyError` otherwise. -/
theorem C7_format_amended :
    (∀ (cu : String) (p : Product), p.images = none → (Tst.format cu p).image = none)
    ∧ (∀ (cu : String) (p : Product), p.images = some [] → (Tst.format cu p).image = none)
    ∧ (∀ (cu : String) (p : Product) (i : Image) (rest : List Image),
        p.images = some (i :: rest) → (Tst.format cu p).image = i.src)
    ∧ (∀ (cu : String) (p : Product), p.permalink = none → (Tst.format cu p).link = "#")
    ∧ Tst.format "@ch" ⟨none, none, none, none, none, none⟩
        = ⟨"🛒 <b>بدون عنوان</b>\n\n\n\n\n\n@ch", none, "#"⟩
    ∧ (∀ (cu : String) (p : Product), p.name.isSome → p.images.isSome →
        (∀ i rest, p.images = some (i :: rest) → i.src.isSome) →
        (∀ t ∈ p.tags.getD [], t.name.isSome) →
        ∃ pay, Bbb.format cu p = Except.ok pay) := by
  refine ⟨?_, ?_, ?_, ?_, by decide, Bbb.format_ok⟩
  · intro cu p h
    simp [Tst.format, h]
  · intro cu p h
    simp [Tst.format, h]
  · intro cu p i rest h
    simp [Tst.format, h]
  · intro cu p h
    simp [Tst.format, h]

theorem C7_format_amended_witness :
    ((⟨some 3, some "Shirt", some "<b>nice</b>", some [⟨some "img.jpg"⟩],
        some [⟨some "wear"⟩], some "https://x/p/3"⟩ : Product)).name.isSome
    ∧ (∃ pay, Bbb.format "@ch"
        ⟨some 3, some "Shirt", some "<b>nice</b>", some [⟨some "img.jpg"⟩],
         some [⟨some "wear"⟩], some "https://x/p/3"⟩ = Except.ok pay)
    ∧ (Tst.format "@ch"
        (⟨some 3, none, none, some [⟨some "pic"⟩], none, none⟩ : Product)).image
        = some "pic" :=
  ⟨by decide,
   C7_format_amended.2.2.2.2.2 "@ch"
     ⟨some 3, some "Shirt", some "<b>nice</b>", some [⟨some "img.jpg"⟩],
      some [⟨some "wear"⟩], some "https://x/p/3"⟩
     (by decide) (by decide)
     (by intro i rest h; injection h with h'; injection h' with h1 h2; rw [← h1]; decide)
     (by decide),
   C7_format_amended.2.2.1 "@ch" ⟨some 3, none, none, some [⟨some "pic"⟩], none, none⟩
     ⟨some "pic"⟩ [] rfl⟩

/-! ### Delivery -/

theorem Tst.deliver_trace (cu : String) (pub : Payload → Bool)
    (items : List Product) : ∀ f : DedupFile,
    (Tst.deliver cu pub items f).2 = Tst.trace cu pub items := by
  induction items with
  | nil => intro f; rfl
  | cons p ps ih =>
    intro f
    rw [Tst.deliver, Tst.trace]
    simp only [ih]

theorem successIds_trace (cu : String) (pub : Payload → Bool) (items : List Product) :
    successIds (Tst.trace cu pub items)
      = (items.filter fun p => pub (Tst.format cu p)).map fun p => p.id.getD 0 := by
  induction items with
  | nil => rfl
  | cons p ps ih =>
    rw [Tst.trace]
    by_cases hok : pub (Tst.format cu p)
    · simp [hok, successIds, List.filter_cons, ih]
    · simp [hok, successIds, List.filter_cons, ih]

theorem Tst.deliver_store_filter (cu : String) (pub : Payload → Bool)
    (items : List Product) : ∀ ls : List (List Char),
    (Tst.deliver cu pub items (DedupFile.lines ls)).1
      = DedupFile.lines (ls ++
          (((items.filter fun p => pub (Tst.format cu p)).map
              fun p => p.id.getD 0).map natRepr)) := by
  induction items with
  | nil => intro ls; simp [Tst.deliver]
  | cons p ps ih =>
    intro ls
    rw [Tst.deliver]
    by_cases hok : pub (Tst.format cu p)
    · simp only [hok, if_true, Tst.save_sent_id, write_sent_id, ih, List.filter_cons]
      simp [hok, List.append_assoc, List.map_map]
    · simp only [hok, if_false, List.filter_cons]
      simp [ih, hok, List.map_map]

theorem Tst.trace_record_follows (cu : String) (pub : Payload → Bool) :
    ∀ (items : List Product) (k i : Nat),
    (Tst.trace cu pub items)[k]? = some (PassEv.publish i true) →
    (Tst.trace cu pub items)[k + 1]? = some (PassEv.record i) := by
  intro items
  induction items with
  | nil => intro k i h; simp [Tst.trace] at h
  | cons p ps ih =>
    intro k i h
    rw [Tst.trace] at h ⊢
    by_cases hok : pub (Tst.format cu p)
    · simp only [hok, if_true, List.singleton_append] at h ⊢
      match k with
      | 0 =>
        simp only [List.getElem?_cons_zero, Option.some_inj] at h
        obtain ⟨hpid, _⟩ := PassEv.publish.inj h.symm
        simp [hpid]
      | 1 => simp at h
      | k + 2 =>
        simp only [List.getElem?_cons_succ] at h ⊢
        exact ih k i h
    · simp only [hok, if_false, List.nil_append] at h ⊢
      match k with
      | 0 => simp at h
      | k + 1 =>
        simp only [List.getElem?_cons_succ] at h ⊢
        exact ih k i h

theorem Tst.load_natRepr (ids : List Nat) :
    Tst.load_sent_ids (DedupFile.lines (ids.map natRepr)) = ids.toFinset := by
  simp only [Tst.load_sent_ids, read_sent_ids, parseLines_natRepr]

theorem Bbb.deliver_store_success (cu : String) (pub : Payload → Bool) :
    ∀ (items : List Product) (ls : List (List Char)), (∀ p ∈ items, p.id.isSome) →
    (Bbb.deliver cu pub items (DedupFile.lines ls)).1
      = DedupFile.lines (ls ++
          (successIds (Bbb.deliver cu pub items (DedupFile.lines ls)).2.1).map natRepr) := by
  intro items
  induction items with
  | nil => intro ls h; simp [Bbb.deliver, successIds]
  | cons p ps ih =>
    intro ls h
    rw [Bbb.deliver]
    cases hfmt : Bbb.format cu p with
    | error e => simp [successIds]
    | ok pay =>
      by_cases hok : pub pay
      · obtain ⟨i, hi⟩ := Option.isSome_iff_exists.mp (h p (by simp))
        simp only [hok, if_true, hi, Bbb.save_sent_id, write_sent_id]
        have hih := ih (ls ++ [natRepr i]) fun q hq => h q (List.mem_cons_of_mem _ hq)
        simp [successIds, hih, List.append_assoc]
      · simp only [hok, if_false]
        have hih := ih ls fun q hq => h q (List.mem_cons_of_mem _ hq)
        simp [successIds, hih]

theorem Bbb.deliver_record_follows (cu : String) (pub : Payload → Bool) :
    ∀ (items : List Product) (ls : List (List Char)) (k i : Nat),
    (∀ p ∈ items, p.id.isSome) →
    ((Bbb.deliver cu pub items (DedupFile.lines ls)).2.1)[k]?
        = some (PassEv.publish i true) →
    ((Bbb.deliver cu pub items (DedupFile.lines ls)).2.1)[k + 1]?
        = some (PassEv.record i) := by
  intro items
  induction items with
  | nil => intro ls k i hids h; simp [Bbb.deliver] at h
  | cons p ps ih =>
    intro ls k i hids h
    rw [Bbb.deliver] at h ⊢
    cases hfmt : Bbb.format cu p with
    | error e => rw [hfmt] at h; simp at h
    | ok pay =>
      rw [hfmt] at h
      by_cases hok : pub pay
      · obtain ⟨j, hj⟩ := Option.isSome_iff_exists.mp (hids p (by simp))
        simp only [hok, if_true, hj, Bbb.save_sent_id, write_sent_id] at h ⊢
        match k with
        | 0 =>
          simp only [List.getElem?_cons_zero, Option.some_inj] at h
          obtain ⟨hpid, _⟩ := PassEv.publish.inj h.symm
          simp [hpid]
        | 1 => simp at h
        | k + 2 =>
          simp only [List.getElem?_cons_succ] at h ⊢
          exact ih (ls ++ [natRepr j]) k i
            (fun q hq => hids q (List.mem_cons_of_mem _ hq)) h
      · dsimp only at h ⊢
        rw [if_neg hok] at h ⊢
        dsimp only at h ⊢
        match k with
        | 0 => simp at h
        | k + 1 =>
          simp only [List.getElem?_cons_succ] at h ⊢
          exact ih ls k i (fun q hq => hids q (List.mem_cons_of_mem _ hq)) h

/-- C1: over a writable dedup store, the delivery loop appends to the
store exactly the identifiers whose publish reported success, in publish
order; every successful publish event is immediately followed by the
recording of that identifier; and a failed publish leaves the store
without that item's identifier, so the next pass's selection over the
updated store still includes the item whenever a fresh fetch returns it.
The `bbbbbaqiap92s.py` conjuncts assume every selected item carries an
`id`, which that variant's selection has already dereferenced. -/
theorem C1_store_iff_publish_success :
    ∀ (cu : String) (pub : Payload → Bool) (items : List Product)
      (ls : List (List Char)),
    ((Tst.deliver cu pub items (DedupFile.lines ls)).1
        = DedupFile.lines (ls ++
            (successIds (Tst.deliver cu pub items (DedupFile.lines ls)).2).map natRepr))
    ∧ (successIds (Tst.deliver cu pub items (DedupFile.lines ls)).2
        = (items.filter fun p => pub (Tst.format cu p)).map fun p => p.id.getD 0)
    ∧ (∀ k i, ((Tst.deliver cu pub items (DedupFile.lines ls)).2)[k]?
          = some (PassEv.publish i true)
        → ((Tst.deliver cu pub items (DedupFile.lines ls)).2)[k + 1]?
          = some (PassEv.record i))
    ∧ (∀ (ids0 : List Nat) (p : Product) (F2 : List Product),
        ls = ids0.map natRepr → p ∈ items → pub (Tst.format cu p) = false →
        ((items.map fun q => q.id.getD 0).Nodup) → p.id.getD 0 ∉ ids0 → p ∈ F2 →
        p ∈ Tst.new_products F2
            (Tst.load_sent_ids (Tst.deliver cu pub items (DedupFile.lines ls)).1))
    ∧ ((∀ p ∈ items, p.id.isSome) →
        ((Bbb.deliver cu pub items (DedupFile.lines ls)).1
            = DedupFile.lines (ls ++
                (successIds (Bbb.deliver cu pub items (DedupFile.lines ls)).2.1).map natRepr))
        ∧ (∀ k i, ((Bbb.deliver cu pub items (DedupFile.lines ls)).2.1)[k]?
              = some (PassEv.publish i true)
            → ((Bbb.deliver cu pub items (DedupFile.lines ls)).2.1)[k + 1]?
              = some (PassEv.record i))) := by
  intro cu pub items ls
  have htr := Tst.deliver_trace cu pub items (DedupFile.lines ls)
  have hsucc : successIds (Tst.deliver cu pub items (DedupFile.lines ls)).2
      = (items.filter fun p => pub (Tst.format cu p)).map fun p => p.id.getD 0 := by
    rw [htr, successIds_trace]
  refine ⟨?_, hsucc, ?_, ?_, fun hids =>
    ⟨Bbb.deliver_store_success cu pub items ls hids,
     fun k i => Bbb.deliver_record_follows cu pub items ls k i hids⟩⟩
  · rw [Tst.deliver_store_filter, hsucc]
  · intro k i h
    rw [htr] at h ⊢
    exact Tst.trace_record_follows cu pub items k i h
  · intro ids0 p F2 hls hp hpub hnodup hnot hmem
    subst hls
    rw [Tst.deliver_store_filter, ← List.map_append, Tst.load_natRepr]
    unfold Tst.new_products
    rw [List.mem_filter]
    refine ⟨hmem, ?_⟩
    simp only [decide_eq_true_eq, List.mem_toFinset, List.mem_append]
    rintro (hin0 | hinS)
    · exact hnot hin0
    · rcases List.mem_map.mp hinS with ⟨q, hq, hqeq⟩
      rcases List.mem_filter.mp hq with ⟨hqmem, hqpub⟩
      have : q = p := List.inj_on_of_nodup_map hnodup hqmem hp hqeq
      rw [this] at hqpub
      rw [hpub] at hqpub
      exact Bool.noConfusion hqpub

theorem C1_store_iff_publish_success_witness :
    ((⟨some 2, none, none, none, none, none⟩ : Product)
        ∈ Tst.new_products
            [⟨some 1, none, none, some [⟨some "i"⟩], none, none⟩,
             ⟨some 2, none, none, none, none, none⟩]
            (Tst.load_sent_ids
              (Tst.deliver "c" (fun pay => pay.image.isSome)
                [⟨some 1, none, none, some [⟨some "i"⟩], none, none⟩,
                 ⟨some 2, none, none, none, none, none⟩]
                (DedupFile.lines ([5].map natRepr))).1))
    ∧ ((Bbb.deliver "c" (fun pay => pay.image.isSome)
          [⟨some 1, none, none, some [⟨some "i"⟩], none, none⟩,
           ⟨some 2, none, none, none, none, none⟩]
          (DedupFile.lines ([5].map natRepr))).1
        = DedupFile.lines (([5].map natRepr) ++
            (successIds (Bbb.deliver "c" (fun pay => pay.image.isSome)
                [⟨some 1, none, none, some [⟨some "i"⟩], none, none⟩,
                 ⟨some 2, none, none, none, none, none⟩]
                (DedupFile.lines ([5].map natRepr))).2.1).map natRepr)) :=
  ⟨(C1_store_iff_publish_success "c" (fun pay => pay.image.isSome)
      [⟨some 1, none, none, some [⟨some "i"⟩], none, none⟩,
       ⟨some 2, none, none, none, none, none⟩] ([5].map natRepr)).2.2.2.1
      [5] ⟨some 2, none, none, none, none, none⟩
      [⟨some 1, none, none, some [⟨some "i"⟩], none, none⟩,
       ⟨some 2, none, none, none, none, none⟩]
      rfl (by decide) (by decide) (by decide) (by decide) (by decide),
   ((C1_store_iff_publish_success "c" (fun pay => pay.image.isSome)
      [⟨some 1, none, none, some [⟨some "i"⟩], none, none⟩,
       ⟨some 2, none, none, none, none, none⟩] ([5].map natRepr)).2.2.2.2
      (by decide)).1⟩

/-! ### Delivery order -/

theorem Tst.trace_publish_order (cu : String) (pub : Payload → Bool)
    (items : List Product) :
    (Tst.trace cu pub items).filterMap publishedId
      = items.map fun p => p.id.getD 0 := by
  induction items with
  | nil => rfl
  | cons p ps ih =>
    rw [Tst.trace]
    by_cases hok : pub (Tst.format cu p)
    · simp [hok, publishedId, List.filterMap_cons, ih]
    · simp [hok, publishedId, List.filterMap_cons, ih]

/-- C3 counterexample: the claim promises delivery in creation order
regardless of the order in which the fetch returned the snapshot; but when
the snapshot arrives newest-first (ids 2 then 1, nothing published yet),
the `testing22.py` pass selects and hence delivers it newest-first —
nothing in either variant re-sorts the fetched page. -/
theorem C3_counterexample :
    Tst.new_products
        [⟨some 2, none, none, none, none, none⟩,
         ⟨some 1, none, none, none, none, none⟩] ∅
      = [⟨some 2, none, none, none, none, none⟩,
         ⟨some 1, none, none, none, none, none⟩]
    ∧ ¬ (([(⟨some 2, none, none, none, none, none⟩ : Product),
           ⟨some 1, none, none, none, none, none⟩].map
             fun p => p.id.getD 0).Sorted (· ≤ ·)) := by
  exact ⟨by decide, by decide⟩

/-- C3 amended: within a pass the selected items are published strictly one
at a time in selection order (one publish event per item, in list order),
and delivery is oldest-first provided the fetch honoured the requested
ordering: ascending for `testing22.py`, which delivers the selection as
fetched, and descending for `bbbbbaqiap92s.py`, whose loop reverses the
selection before publishing. -/
theorem C3_delivery_order_amended :
    (∀ (cu : String) (pub : Payload → Bool) (f : DedupFile) (items : List Product),
        (Tst.deliver cu pub items f).2.filterMap publishedId
          = items.map fun p => p.id.getD 0)
    ∧ (∀ (products : List Product) (sent : Finset Nat),
        ((products.map fun p => p.id.getD 0).Sorted (· ≤ ·)) →
        ((Tst.new_products products sent).map fun p => p.id.getD 0).Sorted (· ≤ ·))
    ∧ (∀ (products : List Product) (sent : Finset Nat),
        (∀ p ∈ products, p.id.isSome) →
        ((products.map fun p => p.id.getD 0).Sorted (· ≥ ·)) →
        ∃ l, Bbb.new_products products sent = Except.ok l
          ∧ ((l.reverse.map fun p => p.id.getD 0).Sorted (· ≤ ·))) := by
  refine ⟨?_, ?_, ?_⟩
  · intro cu pub f items
    rw [Tst.deliver_trace, Tst.trace_publish_order]
  · intro products sent hsorted
    exact hsorted.sublist ((List.filter_sublist products).map _)
  · intro products sent hids hsorted
    refine ⟨products.filter fun p => p.id.getD 0 ∉ sent,
      Bbb.new_products_ok products sent hids, ?_⟩
    rw [List.map_reverse]
    unfold List.Sorted
    rw [List.pairwise_reverse]
    have hsub : (((products.filter fun p => p.id.getD 0 ∉ sent).map
        fun p => p.id.getD 0)).Sublist (products.map fun p => p.id.getD 0) :=
      (List.filter_sublist products).map _
    have hpair := hsorted.sublist hsub
    simpa [flip, ge_iff_le] using hpair

theorem C3_delivery_order_amended_witness :
    (([(⟨some 3, none, none, none, none, none⟩ : Product),
       ⟨some 1, none, none, none, none, none⟩].map
         fun p => p.id.getD 0).Sorted (· ≥ ·))
    ∧ (∃ l, Bbb.new_products
          [(⟨some 3, none, none, none, none, none⟩ : Product),
           ⟨some 1, none, none, none, none, none⟩] ∅ = Except.ok l
        ∧ ((l.reverse.map fun p => p.id.getD 0).Sorted (· ≤ ·)))
    ∧ (([(⟨some 1, none, none, none, none, none⟩ : Product),
         ⟨some 3, none, none, none, none, none⟩].map
           fun p => p.id.getD 0).Sorted (· ≤ ·))
    ∧ ((Tst.new_products
          [(⟨some 1, none, none, none, none, none⟩ : Product),
           ⟨some 3, none, none, none, none, none⟩] ∅).map
             fun p => p.id.getD 0).Sorted (· ≤ ·) :=
  ⟨by decide,
   C3_delivery_order_amended.2.2
     [⟨some 3, none, none, none, none, none⟩, ⟨some 1, none, none, none, none, none⟩]
     ∅ (by decide) (by decide),
   by decide,
   C3_delivery_order_amended.2.1
     [⟨some 1, none, none, none, none, none⟩, ⟨some 3, none, none, none, none, none⟩]
     ∅ (by decide)⟩

/-- C9: a fetch failure makes the pass publish nothing and leave the dedup
store untouched in both variants; the poll loop unrolls one further
iteration whatever the pass did (errors the pass raises are absorbed at
the loop boundary), sleeping the fixed interval after every pass; and
arbitrarily many consecutive failing passes leave the store intact with
the loop still iterating. -/
theorem C9_loop_survives :
    (∀ (cu : String) (pub : Payload → Bool) (e : String) (f : DedupFile),
        (Bbb.check_for_new_products cu pub (Except.error e) f).1 = f
        ∧ (Bbb.check_for_new_products cu pub (Except.error e) f).2.1 = [])
    ∧ (∀ (cu : String) (pub : Payload → Bool) (e : String) (f : DedupFile),
        Tst.check_for_new_products_once cu pub (Except.error e) f = (f, []))
    ∧ (∀ (pass : DedupFile → DedupFile × List PassEv × Option PyErr)
        (n : Nat) (f : DedupFile),
        Bbb.main_loop pass (n + 1) f
          = ((Bbb.main_loop pass n (pass f).1).1,
             Bbb.check_interval_seconds :: (Bbb.main_loop pass n (pass f).1).2))
    ∧ (∀ (pass : DedupFile → DedupFile × List PassEv × Option PyErr)
        (n : Nat) (f : DedupFile),
        (Bbb.main_loop pass n f).2 = List.replicate n Bbb.check_interval_seconds)
    ∧ (∀ (interval : Nat) (pass : DedupFile → DedupFile × List PassEv)
        (n : Nat) (f : DedupFile),
        (Tst.background_loop interval pass n f).2 = List.replicate n interval)
    ∧ (∀ (cu : String) (pub : Payload → Bool) (e : String) (n : Nat) (f : DedupFile),
        (Bbb.main_loop
            (fun g => Bbb.check_for_new_products cu pub (Except.error e) g) n f).1 = f)
    ∧ (∀ (cu : String) (pub : Payload → Bool) (e : String) (interval : Nat)
        (n : Nat) (f : DedupFile),
        (Tst.background_loop interval
            (fun g => Tst.check_for_new_products_once cu pub (Except.error e) g)
            n f).1 = f) := by
  have hbbb : ∀ (cu : String) (pub : Payload → Bool) (e : String) (f : DedupFile),
      (Bbb.check_for_new_products cu pub (Except.error e) f).1 = f
      ∧ (Bbb.check_for_new_products cu pub (Except.error e) f).2.1 = [] := by
    intro cu pub e f
    cases h : Bbb.load_sent_ids f with
    | error err => simp [Bbb.check_for_new_products, h]
    | ok sent => simp [Bbb.check_for_new_products, h]
  have hbloop : ∀ (pass : DedupFile → DedupFile × List PassEv × Option PyErr)
      (n : Nat) (f : DedupFile),
      (Bbb.main_loop pass n f).2 = List.replicate n Bbb.check_interval_seconds := by
    intro pass n
    induction n with
    | zero => intro f; rfl
    | succ m ih => intro f; rw [Bbb.main_loop, ih, List.replicate_succ]
  have htloop : ∀ (interval : Nat) (pass : DedupFile → DedupFile × List PassEv)
      (n : Nat) (f : DedupFile),
      (Tst.background_loop interval pass n f).2 = List.replicate n interval := by
    intro interval pass n
    induction n with
    | zero => intro f; rfl
    | succ m ih => intro f; rw [Tst.background_loop, ih, List.replicate_succ]
  refine ⟨hbbb, fun cu pub e f => rfl, fun pass n f => rfl, hbloop, htloop, ?_, ?_⟩
  · intro cu pub e n
    induction n with
    | zero => intro f; rfl
    | succ m ih =>
      intro f
      rw [Bbb.main_loop]
      simp only [(hbbb cu pub e f).1]
      exact ih f
  · intro cu pub e interval n
    induction n with
    | zero => intro f; rfl
    | succ m ih =>
      intro f
      rw [Tst.background_loop]
      have hpass : Tst.check_for_new_products_once cu pub (Except.error e) f = (f, []) := rfl
      simp only [hpass]
      exact ih f
